import Mathlib

/-!
Verification development for `fetch.py`: a tool that expands an IP target
specification (single IPv4 address, CIDR block, or newline-delimited host
file) and probes each host against a fixed ordered list of REST endpoints,
emitting the first successful payload to a per-host YAML file or to stdout.

The definitions below are a shallow embedding of the functions of
`src/fetch.py` (`fetch_data`, `save_response`, `display_response`,
`read_ip_file`, `process_ip_input`, `main`), together with models of the
CPython library routines they call (`ipaddress.IPv4Address`,
`ipaddress.IPv4Network(..., strict=False)`, `IPv4Network.hosts()`,
`str.splitlines`), each modelled from the documented behavior of current
CPython.  The network, the filesystem, and write-failure behavior are an
explicit `World` oracle; machine-level details (thread interleaving of log
lines across hosts, textual YAML/JSON encodings) that no claim depends on
are abstracted: emissions carry the structured payload itself, and logs are
recorded grouped per host in task-submission order.
-/

namespace Fetch

/-- The parsed JSON value of a successful response body (`response.json()`),
kept opaque as a string since no claim depends on its internal structure. -/
abbrev Payload := String

/-- Outcome of one `requests.get` call, as observed by `fetch_data`:
either a delivered response with an HTTP status and the result of
`response.json()` on its body (`none` when the body is not parseable JSON,
in which case `response.json()` raises `requests.exceptions.JSONDecodeError`,
a `RequestException` subclass in requests >= 2.27), or
`requests.exceptions.Timeout`, or any other
`requests.exceptions.RequestException`. -/
inductive HttpResult where
  | ok (status : Nat) (body : Option Payload)
  | timeout
  | requestError (msg : String)
deriving DecidableEq

/-- One endpoint descriptor from the `endpoints` list built in `main`:
URL template with one substitution slot, header set, and declared port. -/
structure Endpoint where
  url : String
  headers : List (String × String)
  port : Nat
deriving DecidableEq

/-- Log lines produced by the program (`logging.info` / `warning` / `error`),
restricted to the structured content the claims refer to. -/
inductive LogEntry where
  | newDevice (host : String)
  | success (host : String) (port : Nat)
  | httpFailure (host : String) (port : Nat) (status : Nat)
  | timeoutErr (host : String) (port : Nat)
  | requestErr (host : String) (port : Nat) (msg : String)
  | savedResponse (path : String)
  | readFile (filename : String) (count : Nat)
  | invalidInput
deriving DecidableEq

/-- A Result Sink emission: one file write (`save_response`) or one stdout
print (`display_response`). -/
inductive Emission where
  | fileWrite (path : String) (content : Payload)
  | stdoutPrint (host : String) (content : Payload)
deriving DecidableEq

/-- A Python exception that is NOT caught by any handler in `fetch.py` and
therefore propagates: an `OSError` raised while opening/writing an output
file, or the `FileNotFoundError` from `open` on a missing host-list file. -/
inductive Exn where
  | ioError (path : String)
  | fileNotFound (filename : String)
deriving DecidableEq

/-- The external world as seen by the program: `net url ep t` is the outcome
of `requests.get(url, headers=ep.headers, auth=("admin","admin"),
verify=False, timeout=t)`; `files` is the filesystem (path to content);
`writeFails path` says whether `open(path, "w")` / the write raises OSError. -/
structure World where
  net : String → Endpoint → Nat → HttpResult
  files : String → Option String
  writeFails : String → Bool

/-- Split a string at every occurrence of a separator character, modelling
Python `str.split(sep)` for a one-character separator (as used by
`ipaddress` on "." and "/"). -/
def splitOnCharAux (sep : Char) : List Char → List Char → List (List Char)
  | [], acc => [acc.reverse]
  | c :: rest, acc =>
    if c = sep then acc.reverse :: splitOnCharAux sep rest []
    else splitOnCharAux sep rest (c :: acc)

/-- String-level wrapper for `splitOnCharAux`. -/
def splitOnChar (sep : Char) (s : String) : List String :=
  (splitOnCharAux sep s.data []).map (fun cs => String.mk cs)

/-- Numeric value of a list of decimal digit characters. -/
def digitsToNat (cs : List Char) : Nat :=
  cs.foldl (fun n c => n * 10 + (c.toNat - 48)) 0

/-- Modelled from CPython `ipaddress`: parse one octet of a dotted-quad
IPv4 address (decimal, 0..255, at most three digits, no leading zeros). -/
def parseOctet (s : String) : Option Nat :=
  let cs := s.data
  if cs = [] then none
  else if ¬ cs.all (fun c => c.isDigit) then none
  else if cs.length > 3 then none
  else if cs.length > 1 ∧ cs.head? = some '0' then none
  else if digitsToNat cs ≤ 255 then some (digitsToNat cs) else none

/-- Modelled from CPython `ipaddress.IPv4Address(str)`: exactly four
dot-separated octets; returns the 32-bit numeric value, or `none` where the
constructor raises `AddressValueError`. -/
def parseIPv4 (s : String) : Option Nat :=
  match splitOnChar '.' s with
  | [a, b, c, d] =>
    match parseOctet a, parseOctet b, parseOctet c, parseOctet d with
    | some x, some y, some z, some u => some (((x * 256 + y) * 256 + z) * 256 + u)
    | _, _, _, _ => none
  | _ => none

/-- An IPv4 network: numeric network address and prefix length. -/
structure Net where
  network : Nat
  prefixlen : Nat
deriving DecidableEq

/-- The broadcast address of a network. -/
def Net.broadcast (n : Net) : Nat :=
  n.network + 2 ^ (32 - n.prefixlen) - 1

/-- Modelled from CPython `ipaddress.IPv4Network.hosts()`: the usable hosts
of the network, i.e. all addresses except the network and broadcast
addresses — except that a /31 yields both of its addresses and a /32 yields
its single address (documented CPython behavior). -/
def Net.hosts (n : Net) : List Nat :=
  if n.prefixlen = 32 then [n.network]
  else if n.prefixlen = 31 then [n.network, n.network + 1]
  else (List.range (2 ^ (32 - n.prefixlen) - 2)).map (fun i => n.network + 1 + i)

/-- Modelled from CPython `ipaddress.IPv4Network(addr, prefix, strict)`:
with `strict = true` host bits set is an error; with `strict = false` the
address is masked down to its containing network. -/
def mkIPv4Network (a p : Nat) (strict : Bool) : Option Net :=
  if p > 32 then none
  else if strict = true ∧ a % 2 ^ (32 - p) ≠ 0 then none
  else some ⟨a - a % 2 ^ (32 - p), p⟩

/-- Recognize a netmask (contiguous ones then zeros), returning its prefix
length. -/
def netmaskPrefix (m : Nat) : Option Nat :=
  (List.range 33).findSome? (fun p => if m = 2 ^ 32 - 2 ^ (32 - p) then some p else none)

/-- Recognize a hostmask (contiguous zeros then ones), returning the
corresponding prefix length. -/
def hostmaskPrefix (m : Nat) : Option Nat :=
  (List.range 33).findSome? (fun p => if m = 2 ^ (32 - p) - 1 then some p else none)

/-- Modelled from CPython `ipaddress`: the part after "/" in a network
string is either a decimal prefix length 0..32 or a dotted netmask or
hostmask. -/
def parsePrefixPart (s : String) : Option Nat :=
  let cs := s.data
  if cs ≠ [] ∧ cs.all (fun c => c.isDigit) then
    if digitsToNat cs ≤ 32 then some (digitsToNat cs) else none
  else
    match parseIPv4 s with
    | some m =>
      match netmaskPrefix m with
      | some p => some p
      | none => hostmaskPrefix m
    | none => none

/-- Modelled from CPython `ipaddress.IPv4Network(str, strict)`: split at
"/" (at most one allowed), parse the address part as an IPv4 address and
the optional second part as a prefix; `none` where the constructor raises
(a `ValueError`). A bare address gets prefix length 32. -/
def parseIPv4Network (s : String) (strict : Bool) : Option Net :=
  match splitOnChar '/' s with
  | [addr] =>
    match parseIPv4 addr with
    | some a => mkIPv4Network a 32 strict
    | none => none
  | [addr, pre] =>
    match parseIPv4 addr, parsePrefixPart pre with
    | some a, some p => mkIPv4Network a p strict
    | _, _ => none
  | _ => none

/-- Dotted-quad rendering of a 32-bit address, modelling Python
`str(IPv4Address(n))`. -/
def ipToString (a : Nat) : String :=
  toString (a / 16777216 % 256) ++ "." ++ toString (a / 65536 % 256) ++ "." ++
    toString (a / 256 % 256) ++ "." ++ toString (a % 256)

/-- Normalize the line terminators CR and CRLF to a single LF, first phase
of the `str.splitlines()` model. -/
def normalizeEOL : List Char → List Char
  | [] => []
  | '\r' :: '\n' :: rest => '\n' :: normalizeEOL rest
  | '\r' :: rest => '\n' :: normalizeEOL rest
  | c :: rest => c :: normalizeEOL rest

/-- Split a LF-normalized character list at each line feed: one entry per
terminated line — including empty lines — with no entry for a trailing
unterminated empty piece (matching `str.splitlines()`). -/
def splitLinesLF : List Char → List Char → List (List Char)
  | [], acc => if acc = [] then [] else [acc.reverse]
  | c :: rest, acc =>
    if c = '\n' then acc.reverse :: splitLinesLF rest []
    else splitLinesLF rest (c :: acc)

/-- Modelled from CPython `str.splitlines()` (restricted to the line
terminators LF, CR and CRLF, the ones relevant to host-list files); the
model of `f.read().splitlines()` in `read_ip_file`. -/
def splitlines (s : String) : List String :=
  (splitLinesLF (normalizeEOL s.data) []).map (fun cs => String.mk cs)

/-- Join a list of lines, terminating each with a line feed; the canonical
way to write a host-list file with one entry per line. -/
def joinNL : List String → String
  | [] => ""
  | l :: rest => l ++ "\n" ++ joinNL rest

/-- The per-host output file path, `f"response_{ip_address}.yaml"`. -/
def respPath (host : String) : String :=
  "response_" ++ host ++ ".yaml"

/-- `endpoint["url"].format(ip_address)`: substitute the host into the one
substitution slot of the URL template. -/
def formatUrl (template host : String) : String :=
  template.replace "\x7b\x7d" host

/-- The compiled-in `endpoints` list built in `main` (port 8888 first,
then port 443). -/
def mainEndpoints : List Endpoint :=
  [⟨"https://\x7b\x7d:8888/restconf/data/openconfig-system:system/f5-system-health:health/f5-system-health:summary/f5-system-health:components",
    [("Content-Type", "application/yang-data+json")], 8888⟩,
   ⟨"https://\x7b\x7d:443/mgmt/tm/sys/hardware",
    [("Content-Type", "application/json")], 443⟩]

/-- Result of one `fetch_data` call: the ports of the endpoints actually
attempted (one `requests.get` per entry, in order), the log lines, the
Result Sink emissions, and the exception propagating out of the call, if
any. -/
structure FetchResult where
  attempts : List Nat
  logs : List LogEntry
  emissions : List Emission
  exn : Option Exn
deriving DecidableEq

/-- Embedding of `save_response` (fetch.py lines 52-63): `open(path, "w")`
plus `yaml.dump`; raises OSError (uncaught there) when the write fails,
otherwise produces the "Response saved" log and one file-write emission
carrying the payload. -/
def save_response (w : World) (host : String) (p : Payload) :
    Except Exn (List LogEntry × Emission) :=
  if w.writeFails (respPath host) then Except.error (Exn.ioError (respPath host))
  else Except.ok ([LogEntry.savedResponse (respPath host)], Emission.fileWrite (respPath host) p)

/-- Embedding of `display_response` (fetch.py lines 65-74): pretty-print
the payload to stdout, framed with the host identifier. -/
def display_response (host : String) (p : Payload) : Emission :=
  Emission.stdoutPrint host p

/-- One iteration of the endpoint loop of `fetch_data` (fetch.py lines
29-50), given the outcome `r` of this iteration's `requests.get` and the
result `cont` of the loop over the remaining endpoints: on HTTP 200 the
success is logged, then `response.json()` is taken — a parse failure raises
`requests.exceptions.JSONDecodeError`, caught by the `RequestException`
handler (so the loop continues); a parsed body is emitted and the loop
returns (an OSError from `save_response` matches no `except` clause and
propagates); any other status logs a warning and continues; `Timeout` and
other `RequestException`s are logged and the loop continues. -/
def fetchStep (w : World) (host : String) (output : String) (ep : Endpoint)
    (r : HttpResult) (cont : FetchResult) : FetchResult :=
  match r with
  | HttpResult.ok status body =>
    if status = 200 then
      match body with
      | some p =>
        if output = "file" then
          match save_response w host p with
          | Except.error e => ⟨[ep.port], [LogEntry.success host ep.port], [], some e⟩
          | Except.ok (ls, em) =>
            ⟨[ep.port], LogEntry.success host ep.port :: ls, [em], none⟩
        else
          ⟨[ep.port], [LogEntry.success host ep.port], [display_response host p], none⟩
      | none =>
        ⟨ep.port :: cont.attempts,
         LogEntry.success host ep.port :: LogEntry.requestErr host ep.port "JSONDecodeError" :: cont.logs,
         cont.emissions, cont.exn⟩
    else
      ⟨ep.port :: cont.attempts, LogEntry.httpFailure host ep.port status :: cont.logs,
       cont.emissions, cont.exn⟩
  | HttpResult.timeout =>
    ⟨ep.port :: cont.attempts, LogEntry.timeoutErr host ep.port :: cont.logs,
     cont.emissions, cont.exn⟩
  | HttpResult.requestError m =>
    ⟨ep.port :: cont.attempts, LogEntry.requestErr host ep.port m :: cont.logs,
     cont.emissions, cont.exn⟩

/-- The endpoint loop of `fetch_data` (fetch.py lines 28-50): iterate the
endpoint list in declared order, performing one `requests.get` per
endpoint until one short-circuits the loop. -/
def fetchLoop (w : World) (host : String) (t : Nat) (output : String) :
    List Endpoint → FetchResult
  | [] => ⟨[], [], [], none⟩
  | ep :: rest =>
    fetchStep w host output ep (w.net (formatUrl ep.url host) ep t)
      (fetchLoop w host t output rest)

/-- Embedding of `fetch_data` (fetch.py lines 13-50): the "new device"
existence check and notice, then the endpoint loop. -/
def fetch_data (w : World) (host : String) (endpoints : List Endpoint) (t : Nat)
    (output : String) : FetchResult :=
  let r := fetchLoop w host t output endpoints
  if (w.files (respPath host)).isNone then
    ⟨r.attempts, LogEntry.newDevice host :: r.logs, r.emissions, r.exn⟩
  else r

/-- Embedding of `read_ip_file` (fetch.py lines 76-89):
`open(filename).read().splitlines()`; a missing file raises
`FileNotFoundError`, which no handler in the program catches. -/
def read_ip_file (w : World) (filename : String) : Except Exn (List String) :=
  match w.files filename with
  | none => Except.error (Exn.fileNotFound filename)
  | some content => Except.ok (splitlines content)

/-- Result of a whole run (or of one input source): the hosts for which
`fetch_data` was invoked, in task-submission order, the logs and emissions
(grouped per host in submission order; cross-host interleaving is
scheduler-dependent and no claim depends on it), and the first uncaught
exception surfaced by a `future.result()` call, if any. -/
structure RunResult where
  probed : List String
  logs : List LogEntry
  emissions : List Emission
  exn : Option Exn
deriving DecidableEq

/-- The `ThreadPoolExecutor` fan-out pattern (fetch.py lines 107-110 and
156-159): every submitted future executes (the pool is not cancelled), and
the `as_completed` loop's `future.result()` re-raises the first exception
of a task in the main thread. -/
def runPool (w : World) (hosts : List String) (eps : List Endpoint) (t : Nat)
    (output : String) : RunResult :=
  let results := hosts.map (fun h => fetch_data w h eps t output)
  ⟨hosts, (results.map FetchResult.logs).flatten, (results.map FetchResult.emissions).flatten,
   results.findSome? FetchResult.exn⟩

/-- Embedding of `process_ip_input` (fetch.py lines 91-112): try
`IPv4Address` first; on `AddressValueError` try
`IPv4Network(..., strict=False)` and fan the usable hosts out to the pool;
if that raises `ValueError` log "Invalid IP or IP range provided." and
probe nothing.  An exception escaping `fetch_data` (e.g. OSError) matches
neither `except` clause and propagates. -/
def process_ip_input (w : World) (ip_input : String) (eps : List Endpoint) (t : Nat)
    (output : String) : RunResult :=
  match parseIPv4 ip_input with
  | some a =>
    let host := ipToString a
    let r := fetch_data w host eps t output
    ⟨[host], r.logs, r.emissions, r.exn⟩
  | none =>
    match parseIPv4Network ip_input false with
    | some n => runPool w (n.hosts.map ipToString) eps t output
    | none => ⟨[], [LogEntry.invalidInput], [], none⟩

/-- The parsed CLI arguments relevant to the run (fetch.py lines 122-127). -/
structure Args where
  ip_input : Option String
  ip_file : Option String
  timeout : Nat
  output : String

/-- Embedding of `main` (fetch.py lines 114-159) after argument parsing:
with neither source given, print help and exit 0 (no probing); otherwise
process `--ip_input` first — an exception propagating out of it aborts the
run before `--ip_file` is touched — then read the host file (a read failure
propagates as an uncaught exception) and fan its entries out to the pool.
The informational option-echo log lines are omitted from the model. -/
def mainRun (w : World) (args : Args) : RunResult :=
  if args.ip_input = none ∧ args.ip_file = none then ⟨[], [], [], none⟩
  else
    let r1 := match args.ip_input with
      | some s => process_ip_input w s mainEndpoints args.timeout args.output
      | none => ⟨[], [], [], none⟩
    if r1.exn.isSome then r1
    else
      match args.ip_file with
      | none => r1
      | some f =>
        match read_ip_file w f with
        | Except.error e => ⟨r1.probed, r1.logs, r1.emissions, some e⟩
        | Except.ok ips =>
          let r2 := runPool w ips mainEndpoints args.timeout args.output
          ⟨r1.probed ++ r2.probed, r1.logs ++ LogEntry.readFile f ips.length :: r2.logs,
           r1.emissions ++ r2.emissions, r2.exn⟩

/-- Whether a `requests.get` outcome is the success case of the loop:
HTTP 200 with a JSON-parseable body. -/
def isSuccessB : HttpResult → Bool
  | HttpResult.ok status body => decide (status = 200) && body.isSome
  | HttpResult.timeout => false
  | HttpResult.requestError _ => false

/-- Filesystem effect of one emission: a file write stores the payload at
its path (`open(path, "w")` truncates, so the previous content is fully
replaced); a stdout print leaves the filesystem unchanged. -/
def applyEmission (fs : String → Option String) : Emission → (String → Option String)
  | Emission.fileWrite path content => fun q => if q = path then some content else fs q
  | Emission.stdoutPrint _ _ => fs

/-- A world in which every request times out, no file exists and no write
fails. -/
def worldTimeout : World :=
  ⟨fun _ _ _ => HttpResult.timeout, fun _ => none, fun _ => false⟩

/-- A world in which every request is answered 404 with an unparseable
body. -/
def world404 : World :=
  ⟨fun _ _ _ => HttpResult.ok 404 none, fun _ => none, fun _ => false⟩

/-- A world in which the port-8888 endpoint answers 200 with payload
"payload" for every host, "ips.txt" holds the single host 10.0.0.2, and
writing the output file of host 10.0.0.1 raises OSError. -/
def worldWriteFail : World :=
  ⟨fun _ ep _ => if ep.port = 8888 then HttpResult.ok 200 (some "payload") else HttpResult.timeout,
   fun f => if f = "ips.txt" then some "10.0.0.2\n" else none,
   fun path => path == respPath "10.0.0.1"⟩

/-- A world in which the port-8888 endpoint answers 200 with payload "d"
for every host and "ips.txt" lists host 10.0.0.1 twice. -/
def worldDupFile : World :=
  ⟨fun _ ep _ => if ep.port = 8888 then HttpResult.ok 200 (some "d") else HttpResult.timeout,
   fun f => if f = "ips.txt" then some "10.0.0.1\n10.0.0.1\n" else none,
   fun _ => false⟩

/-- A world in which "ips.txt" contains a duplicated host and an empty
line, and every request times out. -/
def worldGapFile : World :=
  ⟨fun _ _ _ => HttpResult.timeout,
   fun f => if f = "ips.txt" then some "10.0.0.1\n\n10.0.0.1\n" else none,
   fun _ => false⟩

/-- Every loop iteration records exactly its own endpoint's port, either
stopping there or prepending it to the continuation's attempts. -/
theorem fetchStep_attempts (w : World) (host output : String) (ep : Endpoint)
    (r : HttpResult) (cont : FetchResult) :
    (fetchStep w host output ep r cont).attempts = [ep.port] ∨
    (fetchStep w host output ep r cont).attempts = ep.port :: cont.attempts := by
  cases r with
  | ok status body =>
    by_cases h200 : status = 200
    · subst h200
      cases body with
      | some p =>
        by_cases ho : output = "file"
        · cases hsv : save_response w host p with
          | error e => simp [fetchStep, ho, hsv]
          | ok pr => cases pr with | mk ls em => simp [fetchStep, ho, hsv]
        · simp [fetchStep, ho]
      | none => simp [fetchStep]
    · simp [fetchStep, h200]
  | timeout => simp [fetchStep]
  | requestError m => simp [fetchStep]

/-- A non-success outcome (non-200 status, unparseable 200 body, timeout,
or transport error) only prepends log lines and this iteration's attempt:
emissions, exception and the rest of the loop pass through unchanged. -/
theorem fetchStep_continue (w : World) (host output : String) (ep : Endpoint)
    (r : HttpResult) (cont : FetchResult) (h : isSuccessB r = false) :
    ∃ pre, fetchStep w host output ep r cont =
      ⟨ep.port :: cont.attempts, pre ++ cont.logs, cont.emissions, cont.exn⟩ := by
  cases r with
  | ok status body =>
    by_cases h200 : status = 200
    · subst h200
      cases body with
      | some p => simp [isSuccessB] at h
      | none =>
        exact ⟨[LogEntry.success host ep.port, LogEntry.requestErr host ep.port "JSONDecodeError"],
          by simp [fetchStep]⟩
    · exact ⟨[LogEntry.httpFailure host ep.port status], by simp [fetchStep, h200]⟩
  | timeout => exact ⟨[LogEntry.timeoutErr host ep.port], by simp [fetchStep]⟩
  | requestError m => exact ⟨[LogEntry.requestErr host ep.port m], by simp [fetchStep]⟩

/-- A success outcome short-circuits the loop: the continuation is ignored
entirely. -/
theorem fetchStep_stop (w : World) (host output : String) (ep : Endpoint)
    (r : HttpResult) (cont cont2 : FetchResult) (h : isSuccessB r = true) :
    fetchStep w host output ep r cont = fetchStep w host output ep r cont2 := by
  cases r with
  | ok status body =>
    simp [isSuccessB] at h
    obtain ⟨h200, hb⟩ := h
    subst h200
    cases body with
    | some p =>
      by_cases ho : output = "file"
      · cases hsv : save_response w host p with
        | error e => simp [fetchStep, ho, hsv]
        | ok pr => cases pr with | mk ls em => simp [fetchStep, ho, hsv]
      · simp [fetchStep, ho]
    | none => simp at hb
  | timeout => simp [isSuccessB] at h
  | requestError m => simp [isSuccessB] at h

/-- A success outcome emits at most once (exactly once unless the file
write raised). -/
theorem fetchStep_emissions_len (w : World) (host output : String) (ep : Endpoint)
    (r : HttpResult) (cont : FetchResult) (h : cont.emissions.length ≤ 1) :
    (fetchStep w host output ep r cont).emissions.length ≤ 1 := by
  cases r with
  | ok status body =>
    by_cases h200 : status = 200
    · subst h200
      cases body with
      | some p =>
        by_cases ho : output = "file"
        · cases hsv : save_response w host p with
          | error e => simp [fetchStep, ho, hsv]
          | ok pr => cases pr with | mk ls em => simp [fetchStep, ho, hsv]
        · simp [fetchStep, ho]
      | none => simpa [fetchStep] using h
    · simpa [fetchStep, h200] using h
  | timeout => simpa [fetchStep] using h
  | requestError m => simpa [fetchStep] using h

/-- If no write can fail, no iteration raises. -/
theorem fetchStep_exn_none (w : World) (host output : String) (ep : Endpoint)
    (r : HttpResult) (cont : FetchResult) (hw : ∀ path, w.writeFails path = false)
    (h : cont.exn = none) : (fetchStep w host output ep r cont).exn = none := by
  cases r with
  | ok status body =>
    by_cases h200 : status = 200
    · subst h200
      cases body with
      | some p =>
        by_cases ho : output = "file"
        · cases hsv : save_response w host p with
          | error e =>
            exfalso
            have := hw (respPath host)
            simp [save_response, this] at hsv
          | ok pr => cases pr with | mk ls em => simp [fetchStep, ho, hsv]
        · simp [fetchStep, ho]
      | none => simpa [fetchStep] using h
    · simpa [fetchStep, h200] using h
  | timeout => simpa [fetchStep] using h
  | requestError m => simpa [fetchStep] using h

/-- The whole endpoint loop emits at most once. -/
theorem fetchLoop_emissions_len (w : World) (host : String) (t : Nat) (output : String) :
    ∀ eps, (fetchLoop w host t output eps).emissions.length ≤ 1 := by
  intro eps
  induction eps with
  | nil => simp [fetchLoop]
  | cons ep rest ih => exact fetchStep_emissions_len w host output ep _ _ ih

/-- If every endpoint attempt fails, the loop emits nothing. -/
theorem fetchLoop_emissions_all_fail (w : World) (host : String) (t : Nat) (output : String) :
    ∀ eps, (∀ ep ∈ eps, isSuccessB (w.net (formatUrl ep.url host) ep t) = false) →
      (fetchLoop w host t output eps).emissions = [] := by
  intro eps
  induction eps with
  | nil => intro _; simp [fetchLoop]
  | cons ep rest ih =>
    intro h
    have hep : isSuccessB (w.net (formatUrl ep.url host) ep t) = false := h ep (by simp)
    obtain ⟨pre, hstep⟩ :=
      fetchStep_continue w host output ep (w.net (formatUrl ep.url host) ep t)
        (fetchLoop w host t output rest) hep
    have hrest : (fetchLoop w host t output rest).emissions = [] :=
      ih (fun e he => h e (by simp [he]))
    simp [fetchLoop, hstep, hrest]

/-- If no write can fail, the loop never raises. -/
theorem fetchLoop_exn_none (w : World) (host : String) (t : Nat) (output : String)
    (hw : ∀ path, w.writeFails path = false) :
    ∀ eps, (fetchLoop w host t output eps).exn = none := by
  intro eps
  induction eps with
  | nil => simp [fetchLoop]
  | cons ep rest ih => exact fetchStep_exn_none w host output ep _ _ hw ih

/-- `fetch_data` only prepends the "new device" notice: attempts,
emissions and exception are those of the loop. -/
theorem fetch_data_eq_loop (w : World) (host : String) (eps : List Endpoint) (t : Nat)
    (output : String) :
    (fetch_data w host eps t output).attempts = (fetchLoop w host t output eps).attempts ∧
    (fetch_data w host eps t output).emissions = (fetchLoop w host t output eps).emissions ∧
    (fetch_data w host eps t output).exn = (fetchLoop w host t output eps).exn := by
  unfold fetch_data
  split <;> simp

/-- A one-endpoint loop attempts exactly that endpoint. -/
theorem fetchLoop_single_attempts (w : World) (host : String) (t : Nat) (output : String)
    (ep : Endpoint) : (fetchLoop w host t output [ep]).attempts = [ep.port] := by
  rcases fetchStep_attempts w host output ep (w.net (formatUrl ep.url host) ep t)
      (fetchLoop w host t output []) with h | h
  · exact h
  · simpa [fetchLoop] using h

/-- A two-endpoint loop attempts the first endpoint, then possibly the
second, in that order. -/
theorem fetchLoop_two_attempts (w : World) (host : String) (t : Nat) (output : String)
    (e1 e2 : Endpoint) :
    (fetchLoop w host t output [e1, e2]).attempts = [e1.port] ∨
    (fetchLoop w host t output [e1, e2]).attempts = [e1.port, e2.port] := by
  rcases fetchStep_attempts w host output e1 (w.net (formatUrl e1.url host) e1 t)
      (fetchLoop w host t output [e2]) with h | h
  · exact Or.inl h
  · refine Or.inr ?_
    rw [show (fetchLoop w host t output [e1, e2]).attempts =
      (fetchStep w host output e1 (w.net (formatUrl e1.url host) e1 t)
        (fetchLoop w host t output [e2])).attempts from rfl, h,
      fetchLoop_single_attempts w host t output e2]

/-- C5: for every host, the port-443 endpoint is never attempted before the
port-8888 endpoint: with the compiled-in endpoint list, `fetch_data`
attempts exactly `[8888]` or `[8888, 443]`, strictly in declared list
order (the loop is a sequential fold, with no racing of endpoints). -/
theorem C5_endpoint_order (w : World) (host : String) (t : Nat) (output : String) :
    (fetch_data w host mainEndpoints t output).attempts = [8888] ∨
    (fetch_data w host mainEndpoints t output).attempts = [8888, 443] := by
  obtain ⟨ha, -, -⟩ := fetch_data_eq_loop w host mainEndpoints t output
  rw [ha]
  exact fetchLoop_two_attempts w host t output _ _

/-- C2 (amended): each `fetch_data` invocation (one probe pipeline) makes
at most one Result Sink emission — the first successful endpoint
short-circuits the rest — and makes none at all (in particular writes no
file) when every endpoint attempt fails.  (A host appearing several times
in the expanded target list is probed once per appearance, so a whole run
can emit more than once for the same host; see the counterexample.) -/
theorem C2_at_most_one_emission (w : World) (host : String) (eps : List Endpoint) (t : Nat)
    (output : String) :
    (fetch_data w host eps t output).emissions.length ≤ 1 ∧
    ((∀ ep ∈ eps, isSuccessB (w.net (formatUrl ep.url host) ep t) = false) →
      (fetch_data w host eps t output).emissions = []) := by
  obtain ⟨-, he, -⟩ := fetch_data_eq_loop w host eps t output
  constructor
  · rw [he]
    exact fetchLoop_emissions_len w host t output eps
  · intro h
    rw [he]
    exact fetchLoop_emissions_all_fail w host t output eps h

/-- Witness for C2: with both endpoints timing out, the host produces no
emission. -/
theorem C2_at_most_one_emission_witness :
    (∀ ep ∈ mainEndpoints, isSuccessB (worldTimeout.net (formatUrl ep.url "10.0.0.1") ep 3) = false) ∧
    (fetch_data worldTimeout "10.0.0.1" mainEndpoints 3 "stdout").emissions = [] :=
  ⟨by decide,
   (C2_at_most_one_emission worldTimeout "10.0.0.1" mainEndpoints 3 "stdout").2 (by decide)⟩

/-- Counterexample to C2 as stated: a run whose host file lists 10.0.0.1
twice emits twice for host 10.0.0.1 in that one run (the target list is
not deduplicated), so "at most one emission per host per run" fails. -/
theorem C2_counterexample :
    (mainRun worldDupFile ⟨none, some "ips.txt", 3, "stdout"⟩).emissions =
      [Emission.stdoutPrint "10.0.0.1" "d", Emission.stdoutPrint "10.0.0.1" "d"] ∧
    ¬ (mainRun worldDupFile ⟨none, some "ips.txt", 3, "stdout"⟩).emissions.length ≤ 1 := by
  decide

/-- C4: an endpoint attempt short-circuits the loop (ignoring all remaining
endpoints) exactly when the response has HTTP status 200 and a parseable
JSON body; such a success is logged with the endpoint's port and (in stdout
mode) the payload is handed to the Result Sink; a response with any other
status logs an HTTPFailure for that host and port and the loop continues
with the next endpoint. -/
theorem C4_success_classification (w : World) (host : String) (t : Nat) (output : String)
    (ep : Endpoint) :
    ((∀ rest, fetchLoop w host t output (ep :: rest) = fetchLoop w host t output [ep]) ↔
      isSuccessB (w.net (formatUrl ep.url host) ep t) = true) ∧
    (∀ p, w.net (formatUrl ep.url host) ep t = HttpResult.ok 200 (some p) →
      LogEntry.success host ep.port ∈ (fetchLoop w host t output [ep]).logs ∧
      (output ≠ "file" →
        (fetchLoop w host t output [ep]).emissions = [display_response host p])) ∧
    (∀ s b rest, w.net (formatUrl ep.url host) ep t = HttpResult.ok s b → s ≠ 200 →
      fetchLoop w host t output (ep :: rest) =
        ⟨ep.port :: (fetchLoop w host t output rest).attempts,
         LogEntry.httpFailure host ep.port s :: (fetchLoop w host t output rest).logs,
         (fetchLoop w host t output rest).emissions,
         (fetchLoop w host t output rest).exn⟩) := by
  refine ⟨⟨?_, ?_⟩, ?_, ?_⟩
  · intro hall
    by_contra hns
    rw [Bool.not_eq_true] at hns
    obtain ⟨pre, hstep⟩ :=
      fetchStep_continue w host output ep (w.net (formatUrl ep.url host) ep t)
        (fetchLoop w host t output [ep]) hns
    have hattA : (fetchLoop w host t output (ep :: [ep])).attempts =
        ep.port :: (fetchLoop w host t output [ep]).attempts := by
      rw [show fetchLoop w host t output (ep :: [ep]) =
        fetchStep w host output ep (w.net (formatUrl ep.url host) ep t)
          (fetchLoop w host t output [ep]) from rfl, hstep]
    rw [hall [ep], fetchLoop_single_attempts w host t output ep] at hattA
    simp at hattA
  · intro hs rest
    exact fetchStep_stop w host output ep (w.net (formatUrl ep.url host) ep t)
      (fetchLoop w host t output rest) (fetchLoop w host t output []) hs
  · intro p hp
    constructor
    · rw [show (fetchLoop w host t output [ep]).logs =
        (fetchStep w host output ep (w.net (formatUrl ep.url host) ep t)
          (fetchLoop w host t output [])).logs from rfl, hp]
      by_cases ho : output = "file"
      · cases hsv : save_response w host p with
        | error e => simp [fetchStep, ho, hsv]
        | ok pr => cases pr with | mk ls em => simp [fetchStep, ho, hsv]
      · simp [fetchStep, ho]
    · intro ho
      rw [show (fetchLoop w host t output [ep]).emissions =
        (fetchStep w host output ep (w.net (formatUrl ep.url host) ep t)
          (fetchLoop w host t output [])).emissions from rfl, hp]
      simp [fetchStep, ho]
  · intro s b rest hp hs
    rw [show fetchLoop w host t output (ep :: rest) =
      fetchStep w host output ep (w.net (formatUrl ep.url host) ep t)
        (fetchLoop w host t output rest) from rfl, hp]
    simp [fetchStep, hs]

/-- Witness for C4: a 404 response is logged as an HTTPFailure and the loop
moves on (here: ends, the endpoint being the last). -/
theorem C4_success_classification_witness :
    ((world404.net (formatUrl "u" "h") ⟨"u", [], 8888⟩ 3 = HttpResult.ok 404 none) ∧
      (404 ≠ 200)) ∧
    fetchLoop world404 "h" 3 "stdout" [⟨"u", [], 8888⟩] =
      ⟨[8888], [LogEntry.httpFailure "h" 8888 404], [], none⟩ :=
  ⟨⟨rfl, by decide⟩,
   (C4_success_classification world404 "h" 3 "stdout" ⟨"u", [], 8888⟩).2.2 404 none [] rfl
     (by decide)⟩

/-- A character other than CR passes through EOL normalization unchanged. -/
theorem normalizeEOL_cons (c : Char) (rest : List Char) (hc : c ≠ '\r') :
    normalizeEOL (c :: rest) = c :: normalizeEOL rest := by
  rw [normalizeEOL.eq_def]
  split
  · simp_all
  · simp_all
  · simp_all
  · simp_all

/-- EOL normalization distributes over a CR-free prefix followed by LF. -/
theorem normalizeEOL_append_nl :
    ∀ (l : List Char), (∀ c ∈ l, c ≠ '\r') → ∀ s,
      normalizeEOL (l ++ '\n' :: s) = l ++ '\n' :: normalizeEOL s := by
  intro l
  induction l with
  | nil =>
    intro _ s
    simpa using normalizeEOL_cons '\n' s (by decide)
  | cons c rest ih =>
    intro h s
    have hc : c ≠ '\r' := h c (by simp)
    have hrest : ∀ x ∈ rest, x ≠ '\r' := fun x hx => h x (by simp [hx])
    rw [List.cons_append, normalizeEOL_cons c _ hc, ih hrest s, List.cons_append]

/-- Splitting an LF-free line followed by a terminator yields that line
verbatim, then the split of the remainder. -/
theorem splitLinesLF_append :
    ∀ (l : List Char), (∀ c ∈ l, c ≠ '\n') → ∀ s acc,
      splitLinesLF (l ++ '\n' :: s) acc = (acc.reverse ++ l) :: splitLinesLF s [] := by
  intro l
  induction l with
  | nil =>
    intro _ s acc
    simp [splitLinesLF]
  | cons c rest ih =>
    intro h s acc
    have hc : c ≠ '\n' := h c (by simp)
    have hrest : ∀ x ∈ rest, x ≠ '\n' := fun x hx => h x (by simp [hx])
    rw [List.cons_append]
    rw [show splitLinesLF (c :: (rest ++ '\n' :: s)) acc =
      splitLinesLF (rest ++ '\n' :: s) (c :: acc) by simp [splitLinesLF, hc]]
    rw [ih hrest s (c :: acc)]
    simp

/-- `splitlines` is a left inverse of `joinNL` on terminator-free lines:
every line of the file, empty ones included, becomes one entry verbatim,
in file order, with nothing removed or merged. -/
theorem splitlines_joinNL :
    ∀ (ls : List String), (∀ l ∈ ls, ∀ c ∈ l.data, c ≠ '\n' ∧ c ≠ '\r') →
      splitlines (joinNL ls) = ls := by
  intro ls
  induction ls with
  | nil => intro _; rfl
  | cons l rest ih =>
    intro h
    have hl : ∀ c ∈ l.data, c ≠ '\n' ∧ c ≠ '\r' := h l (by simp)
    have hrest : ∀ x ∈ rest, ∀ c ∈ x.data, c ≠ '\n' ∧ c ≠ '\r' :=
      fun x hx => h x (by simp [hx])
    have hdata : (joinNL (l :: rest)).data = l.data ++ '\n' :: (joinNL rest).data := by
      show (l ++ "\n" ++ joinNL rest).data = _
      rw [String.data_append, String.data_append]
      simp [show ("\n" : String).data = ['\n'] from rfl]
    unfold splitlines
    rw [hdata, normalizeEOL_append_nl l.data (fun c hc => (hl c hc).2) _,
      splitLinesLF_append l.data (fun c hc => (hl c hc).1) _ []]
    have hmk : String.mk l.data = l := by cases l; rfl
    simp only [List.map_cons, List.reverse_nil, List.nil_append, hmk]
    have := ih hrest
    unfold splitlines at this
    rw [this]

/-- C6 (amended): for a host-list file, the Target Expander (`read_ip_file`)
returns one host identifier per line of the file, verbatim and in order,
with the line terminator stripped — but empty lines are kept as empty-string
host identifiers and no deduplication is performed (see the
counterexample). -/
theorem C6_file_expansion (w : World) (f : String) (ls : List String)
    (hls : ∀ l ∈ ls, ∀ c ∈ l.data, c ≠ '\n' ∧ c ≠ '\r')
    (hf : w.files f = some (joinNL ls)) :
    read_ip_file w f = Except.ok ls := by
  unfold read_ip_file
  rw [hf]
  exact congrArg Except.ok (splitlines_joinNL ls hls)

/-- Witness for C6: a file with a duplicated host and an empty line is read
back exactly as its lines. -/
theorem C6_file_expansion_witness :
    (worldGapFile.files "ips.txt" = some (joinNL ["10.0.0.1", "", "10.0.0.1"])) ∧
    read_ip_file worldGapFile "ips.txt" = Except.ok ["10.0.0.1", "", "10.0.0.1"] :=
  ⟨by decide,
   C6_file_expansion worldGapFile "ips.txt" ["10.0.0.1", "", "10.0.0.1"] (by decide) (by decide)⟩

/-- Counterexample to C6 as stated: the file "10.0.0.1\n\n10.0.0.1\n"
yields the host sequence ["10.0.0.1", "", "10.0.0.1"] — the empty line
becomes an (empty) host identifier and the duplicate is kept, so the
produced sequence is neither deduplicated nor empty-line-free, and the run
probes all three entries. -/
theorem C6_counterexample :
    read_ip_file worldGapFile "ips.txt" = Except.ok ["10.0.0.1", "", "10.0.0.1"] ∧
    ¬ (["10.0.0.1", "", "10.0.0.1"] : List String).Nodup ∧
    "" ∈ (["10.0.0.1", "", "10.0.0.1"] : List String) ∧
    (mainRun worldGapFile ⟨none, some "ips.txt", 3, "stdout"⟩).probed =
      ["10.0.0.1", "", "10.0.0.1"] :=
  ⟨rfl, by decide, by decide, by decide⟩

/-- C1 (amended): every HTTP-layer error (timeout, transport error, bad
status, unparseable body — all `requests` exceptions) is caught inside the
host's pipeline and only logged, so when no output-file write fails a
host's pipeline never raises; but an I/O failure while writing the host's
output file is NOT caught: it escapes `fetch_data`, and once an exception
escapes the `--ip_input` source's processing, `main` aborts before the
`--ip_file` source is processed at all. -/
theorem C1_error_handling (w : World) (host : String) (eps : List Endpoint) (t : Nat)
    (output : String) (args : Args) (s : String) :
    ((∀ path, w.writeFails path = false) → (fetch_data w host eps t output).exn = none) ∧
    (∀ ep rest p, w.net (formatUrl ep.url host) ep t = HttpResult.ok 200 (some p) →
      output = "file" → w.writeFails (respPath host) = true →
      (fetchLoop w host t output (ep :: rest)).exn = some (Exn.ioError (respPath host))) ∧
    (args.ip_input = some s →
      (process_ip_input w s mainEndpoints args.timeout args.output).exn.isSome = true →
      mainRun w args = process_ip_input w s mainEndpoints args.timeout args.output) := by
  refine ⟨?_, ?_, ?_⟩
  · intro hw
    obtain ⟨-, -, hx⟩ := fetch_data_eq_loop w host eps t output
    rw [hx]
    exact fetchLoop_exn_none w host t output hw eps
  · intro ep rest p hp ho hw
    rw [show fetchLoop w host t output (ep :: rest) =
      fetchStep w host output ep (w.net (formatUrl ep.url host) ep t)
        (fetchLoop w host t output rest) from rfl, hp]
    simp [fetchStep, ho, save_response, hw]
  · intro hin hexn
    have hcond : ¬ (args.ip_input = none ∧ args.ip_file = none) := by
      rw [hin]
      simp
    unfold mainRun
    rw [if_neg hcond, hin]
    simp only [hexn, if_pos]

/-- Witness for C1: in a world where writing host 10.0.0.1's output file
raises OSError, the exception escapes `process_ip_input` and `main` stops
there. -/
theorem C1_error_handling_witness :
    (process_ip_input worldWriteFail "10.0.0.1" mainEndpoints 3 "file").exn.isSome = true ∧
    mainRun worldWriteFail ⟨some "10.0.0.1", some "ips.txt", 3, "file"⟩ =
      process_ip_input worldWriteFail "10.0.0.1" mainEndpoints 3 "file" :=
  ⟨by decide,
   (C1_error_handling worldWriteFail "10.0.0.1" mainEndpoints 3 "file"
      ⟨some "10.0.0.1", some "ips.txt", 3, "file"⟩ "10.0.0.1").2.2 rfl (by decide)⟩

/-- Counterexample to C1 as stated: host 10.0.0.1 probes successfully but
its file write raises; the error is not caught — the run's exception is the
OSError — and host 10.0.0.2, listed in the still-unread "ips.txt", is never
probed: the failure aborts processing of the remaining hosts. -/
theorem C1_counterexample :
    (mainRun worldWriteFail ⟨some "10.0.0.1", some "ips.txt", 3, "file"⟩).exn =
      some (Exn.ioError "response_10.0.0.1.yaml") ∧
    read_ip_file worldWriteFail "ips.txt" = Except.ok ["10.0.0.2"] ∧
    "10.0.0.2" ∉ (mainRun worldWriteFail ⟨some "10.0.0.1", some "ips.txt", 3, "file"⟩).probed ∧
    (mainRun worldWriteFail ⟨some "10.0.0.1", some "ips.txt", 3, "file"⟩).emissions = [] :=
  ⟨by decide, rfl, by decide, by decide⟩

/-- Counterexample to C3 as stated: "10.0.0.0/31" is a valid CIDR input,
yet its expansion `hosts()` contains the network address 10.0.0.0 itself
(CPython yields both addresses of a /31), so "excludes the network
address" fails for every valid CIDR input. -/
theorem C3_counterexample :
    parseIPv4Network "10.0.0.0/31" false = some ⟨167772160, 31⟩ ∧
    (Net.mk 167772160 31).network ∈ (Net.mk 167772160 31).hosts ∧
    (process_ip_input worldTimeout "10.0.0.0/31" mainEndpoints 3 "stdout").probed =
      ["10.0.0.0", "10.0.0.1"] := by
  refine ⟨by decide, by decide, by decide⟩

/-- C3 (amended): the CIDR expansion never contains duplicates; for prefix
lengths up to /30 it excludes the network and broadcast addresses, while a
/31 or /32 network expands to all of its addresses; the input 10.0.0.0/30
expands to exactly the hosts 10.0.0.1 and 10.0.0.2. -/
theorem C3_expansion (n : Net) :
    n.hosts.Nodup ∧
    (n.prefixlen ≤ 30 → n.network ∉ n.hosts ∧ n.broadcast ∉ n.hosts) ∧
    (process_ip_input worldTimeout "10.0.0.0/30" mainEndpoints 3 "stdout").probed =
      ["10.0.0.1", "10.0.0.2"] := by
  refine ⟨?_, ?_, by decide⟩
  · unfold Net.hosts
    split
    · simp
    · split
      · rw [List.nodup_cons]
        refine ⟨?_, List.nodup_singleton _⟩
        simp
      · refine List.Nodup.map ?_ (List.nodup_range _)
        intro a b hab
        have hab2 : n.network + 1 + a = n.network + 1 + b := hab
        omega
  · intro hp
    have h32 : ¬ n.prefixlen = 32 := by omega
    have h31 : ¬ n.prefixlen = 31 := by omega
    constructor
    · intro hmem
      unfold Net.hosts at hmem
      rw [if_neg h32, if_neg h31] at hmem
      obtain ⟨i, hi, hEq⟩ := List.mem_map.mp hmem
      omega
    · intro hmem
      unfold Net.hosts at hmem
      rw [if_neg h32, if_neg h31] at hmem
      obtain ⟨i, hi, hEq⟩ := List.mem_map.mp hmem
      rw [List.mem_range] at hi
      unfold Net.broadcast at hEq
      have hpow : 2 ≤ 2 ^ (32 - n.prefixlen) := by
        have h1 : 1 ≤ 32 - n.prefixlen := by omega
        calc 2 = 2 ^ 1 := rfl
        _ ≤ 2 ^ (32 - n.prefixlen) := Nat.pow_le_pow_right (by norm_num) h1
      omega

/-- Witness for C3: the /30 network 10.0.0.4/30 excludes its network and
broadcast addresses. -/
theorem C3_expansion_witness :
    (Net.mk 167772164 30).prefixlen ≤ 30 ∧
    ((Net.mk 167772164 30).network ∉ (Net.mk 167772164 30).hosts ∧
     (Net.mk 167772164 30).broadcast ∉ (Net.mk 167772164 30).hosts) :=
  ⟨by decide, (C3_expansion ⟨167772164, 30⟩).2.1 (by decide)⟩

/-- C7: `process_ip_input` validates its string as a single IPv4 address
first and probes that one host on success; only on failure of that
validation does it attempt a CIDR parse (non-strict) and fan the block's
usable hosts out; and when both parses fail it logs the invalid-input
condition and produces no targets — no host is probed. -/
theorem C7_input_priority (w : World) (s : String) (eps : List Endpoint) (t : Nat)
    (output : String) :
    (∀ a, parseIPv4 s = some a →
      process_ip_input w s eps t output =
        ⟨[ipToString a], (fetch_data w (ipToString a) eps t output).logs,
         (fetch_data w (ipToString a) eps t output).emissions,
         (fetch_data w (ipToString a) eps t output).exn⟩) ∧
    (parseIPv4 s = none → ∀ n, parseIPv4Network s false = some n →
      process_ip_input w s eps t output = runPool w (n.hosts.map ipToString) eps t output) ∧
    (parseIPv4 s = none → parseIPv4Network s false = none →
      process_ip_input w s eps t output = ⟨[], [LogEntry.invalidInput], [], none⟩) := by
  refine ⟨?_, ?_, ?_⟩
  · intro a ha
    simp [process_ip_input, ha]
  · intro h1 n h2
    simp [process_ip_input, h1, h2]
  · intro h1 h2
    simp [process_ip_input, h1, h2]

/-- Witness for C7: "10.0.0.300" is neither a valid address nor a valid
CIDR, so the run reports invalid input and probes nothing. -/
theorem C7_input_priority_witness :
    parseIPv4 "10.0.0.300" = none ∧ parseIPv4Network "10.0.0.300" false = none ∧
    process_ip_input worldTimeout "10.0.0.300" mainEndpoints 3 "stdout" =
      ⟨[], [LogEntry.invalidInput], [], none⟩ :=
  ⟨by decide, by decide,
   (C7_input_priority worldTimeout "10.0.0.300" mainEndpoints 3 "stdout").2.2
     (by decide) (by decide)⟩

/-- C8: with `--ip_file` naming a missing file and no `--ip_input`, the run
aborts with the file-read error (an uncaught `FileNotFoundError`, reported
as the process's failure) and probes no host at all. -/
theorem C8_missing_file (w : World) (f : String) (t : Nat) (output : String)
    (hf : w.files f = none) :
    mainRun w ⟨none, some f, t, output⟩ = ⟨[], [], [], some (Exn.fileNotFound f)⟩ := by
  unfold mainRun
  rw [if_neg (by simp)]
  simp [read_ip_file, hf]

/-- Witness for C8: concrete missing file "missing.txt". -/
theorem C8_missing_file_witness :
    worldTimeout.files "missing.txt" = none ∧
    mainRun worldTimeout ⟨none, some "missing.txt", 3, "stdout"⟩ =
      ⟨[], [], [], some (Exn.fileNotFound "missing.txt")⟩ :=
  ⟨rfl, C8_missing_file worldTimeout "missing.txt" 3 "stdout" rfl⟩

/-- C9: `save_response` writes with `open(path, "w")`, which truncates:
writing payload p2 after payload p1 for the same host leaves the filesystem
exactly as if only p2 had been written, and the final file holds exactly
p2's serialization — overwrite, never append or merge. -/
theorem C9_overwrite (fs : String → Option String) (host : String) (p1 p2 : Payload) :
    applyEmission (applyEmission fs (Emission.fileWrite (respPath host) p1))
        (Emission.fileWrite (respPath host) p2) =
      applyEmission fs (Emission.fileWrite (respPath host) p2) ∧
    applyEmission fs (Emission.fileWrite (respPath host) p2) (respPath host) = some p2 ∧
    (∀ w : World, w.writeFails (respPath host) = false →
      save_response w host p2 =
        Except.ok ([LogEntry.savedResponse (respPath host)],
          Emission.fileWrite (respPath host) p2)) := by
  refine ⟨?_, ?_, ?_⟩
  · funext q
    by_cases hq : q = respPath host <;> simp [applyEmission, hq]
  · simp [applyEmission]
  · intro w hw
    simp [save_response, hw]

/-- Witness for C9: a concrete second save produces exactly the overwrite
emission. -/
theorem C9_overwrite_witness :
    worldTimeout.writeFails (respPath "10.0.0.1") = false ∧
    save_response worldTimeout "10.0.0.1" "payload2" =
      Except.ok ([LogEntry.savedResponse (respPath "10.0.0.1")],
        Emission.fileWrite (respPath "10.0.0.1") "payload2") :=
  ⟨rfl, (C9_overwrite (fun _ => none) "10.0.0.1" "payload1" "payload2").2.2 worldTimeout rfl⟩

/-- C10: the CIDR parse is `IPv4Network(..., strict=False)`, so an input
with host bits set is accepted — never an error — and normalized to its
containing network by masking; concretely, --ip_input 10.0.0.5/30 is
accepted, normalized to 10.0.0.4/30, and the run probes its usable hosts
10.0.0.5 and 10.0.0.6, with no invalid-input report. -/
theorem C10_nonstrict (a p : Nat) (hp : p ≤ 32) :
    mkIPv4Network a p false = some ⟨a - a % 2 ^ (32 - p), p⟩ ∧
    parseIPv4Network "10.0.0.5/30" false = some ⟨167772164, 30⟩ ∧
    (process_ip_input worldTimeout "10.0.0.5/30" mainEndpoints 3 "stdout").probed =
      ["10.0.0.5", "10.0.0.6"] ∧
    LogEntry.invalidInput ∉ (process_ip_input worldTimeout "10.0.0.5/30" mainEndpoints 3 "stdout").logs := by
  refine ⟨?_, by decide, by decide, by decide⟩
  · unfold mkIPv4Network
    rw [if_neg (by omega), if_neg (by simp)]

/-- Witness for C10: 10.0.0.5/30 (host bits set) is accepted non-strictly
and masked down to the network 10.0.0.4/30. -/
theorem C10_nonstrict_witness :
    30 ≤ 32 ∧ mkIPv4Network 167772165 30 false = some ⟨167772164, 30⟩ :=
  ⟨by decide, (C10_nonstrict 167772165 30 (by decide)).1⟩

end Fetch
